import Mathlib

/-!
Verification of the polling/deduplication/notification engine of the
Hyperliquid monitor (src/src/bin/monitor.rs and src/src/bin/monitor_headless.rs).

The two binaries contain textually duplicated monitoring logic
(`monitor_address`, `sc_send`, `send_to_all_keys`, `to_beijing_time`); they
differ only in the notification message formatting.  The shallow embedding
below models the shared logic once, parameterised by a `Variant` tag where the
two binaries diverge.  Network I/O (the exchange fetch, the notification HTTP
POST) is external: a fetch result enters the model as an `Except` value and a
notification attempt is modelled up to the point the code hands the request to
the HTTP client (URL construction and key-format validation, which is the only
locally decidable part of `sc_send`).
-/

set_option maxHeartbeats 1000000

namespace HLMonitor

/-- Variant tag: `gui` is src/src/bin/monitor.rs, `headless` is
src/src/bin/monitor_headless.rs.  The monitoring logic is identical in both
files; only message formatting differs. -/
inductive Variant where
  | gui
  | headless
deriving DecidableEq

/-- One fill (trade execution) as returned by the exchange adapter
(`info_client.user_fills`).  `time` and `oid` are u64 in the source (modelled
as `Nat`, with the `as i64` cast made explicit by `asI64` below); `sz` and
`px` are the numeric strings delivered by the exchange. -/
structure Fill where
  time : Nat
  oid : Nat
  coin : String
  side : String
  sz : String
  px : String
deriving DecidableEq

/-- The `Transaction` record built by `monitor_address` from a fill
(monitor.rs lines 205-212, monitor_headless.rs lines 175-182).  The source
stores `size = fill.sz.parse::<f64>().unwrap_or(0.0)` and likewise for
`entry_price`; floating-point parsing is outside this embedding, so the raw
numeral strings are carried instead (no claim inspects the parsed values).
The constant `leverage: 1.0` field is likewise omitted. -/
structure Transaction where
  timestamp : Int
  token : String
  side : String
  sz : String
  px : String
deriving DecidableEq

/-- The `fill.time as i64` cast used by the source when comparing a u64 fill
time against the i64 `start_time`: two's-complement reinterpretation of the
low 64 bits. -/
def asI64 (t : Nat) : Int :=
  if t % 2 ^ 64 < 2 ^ 63 then ((t % 2 ^ 64 : Nat) : Int)
  else ((t % 2 ^ 64 : Nat) : Int) - 2 ^ 64

/-- The deduplication identifier computed for every fill:
`format!("{}-{}", fill.time, fill.oid)` (monitor.rs line 200,
monitor_headless.rs line 170). -/
def transaction_id (f : Fill) : String :=
  toString f.time ++ "-" ++ toString f.oid

/-- Modelled from the spec: the spec's §3 DedupState describes the stored key
as the composite key `fillTime:orderId`.  This definition follows the spec's
words (time, then order id, joined by the spec's separator) and exists only to
be compared against `transaction_id`, which is translated from the source. -/
def specCompositeId (t o : Nat) : String :=
  toString t ++ ":" ++ toString o

/-- Construction of a `Transaction` from a fill, as done inline in the source
at classification time. -/
def mkTransaction (f : Fill) : Transaction :=
  { timestamp := asI64 f.time
    token := f.coin
    side := f.side
    sz := f.sz
    px := f.px }

/-- The steady-state classification loop of `monitor_address`
(monitor.rs lines 199-216, monitor_headless.rs lines 169-186): walk the
fetched fills in order; a fill is new when its `transaction_id` is absent
from `last_transaction_ids` and `(fill.time as i64) > start_time`; only then
is its identifier inserted.  Returns the new fills in fetch order together
with the updated identifier set (`HashSet` modelled as a duplicate-free
list, insertion as `List.insert`; here the guard guarantees absence, so a
plain cons is the same insertion). -/
def classifyFills (seen : List String) (cutoff : Int) : List Fill → List Fill × List String
  | [] => ([], seen)
  | f :: fs =>
    if transaction_id f ∉ seen ∧ asI64 f.time > cutoff then
      let rest := classifyFills (transaction_id f :: seen) cutoff fs
      (f :: rest.1, rest.2)
    else
      classifyFills seen cutoff fs

/-- Mutable state owned by one monitor loop: the seen-identifier set and the
shared transaction log (the log is shared via a mutex in the source; lock
events are modelled in the tick's event trace). -/
structure MonitorState where
  seen : List String
  log : List Transaction
deriving DecidableEq

/-- Observable actions of one loop iteration, in program order:
notification submissions and the mutex critical section around the log. -/
inductive Event where
  | notify (key : String) (text : String)
  | lockAcquire
  | append (tx : Transaction)
  | lockRelease
deriving DecidableEq

def Event.isNotify : Event → Bool
  | .notify _ _ => true
  | _ => false

/-- Proleptic-Gregorian date from a day count relative to 1970-01-01 (the
standard civil-from-days computation performed by the date library when the
source renders a `NaiveDateTime`).  Returns (year, month, day). -/
def civilFromDays (z0 : Int) : Int × Nat × Nat :=
  let z : Int := z0 + 719468
  let era : Int := z / 146097
  let doe : Nat := (z - era * 146097).toNat
  let yoe : Nat := (doe - doe / 1460 + doe / 36524 - doe / 146096) / 365
  let doy : Nat := doe - (365 * yoe + yoe / 4 - yoe / 100)
  let mp : Nat := (5 * doy + 2) / 153
  let d : Nat := doy - (153 * mp + 2) / 5 + 1
  let m : Nat := if mp < 10 then mp + 3 else mp - 9
  let y : Int := (yoe : Int) + era * 400 + (if m ≤ 2 then 1 else 0)
  (y, m, d)

/-- Day count of `to_beijing_time(ts)`: the source shifts the UTC datetime by
eight hours (`utc_time + chrono::Duration::hours(8)`, monitor.rs lines
107-114); shifting the epoch milliseconds by 28,800,000 before the split into
days and seconds-of-day is the same computation. -/
def beijing_days (tsMillis : Int) : Int :=
  ((tsMillis + 28800000) / 1000) / 86400

/-- Seconds-of-day component of `to_beijing_time(ts)`; in `[0, 86400)`. -/
def beijing_sod (tsMillis : Int) : Nat :=
  (((tsMillis + 28800000) / 1000) % 86400).toNat

/-- Zero-pad a number to two decimal digits, as the `%m`, `%d`, `%H`, `%M`,
`%S` format specifiers do. -/
def pad2 (n : Nat) : String :=
  if n < 10 then "0" ++ toString n else toString n

/-- Zero-pad a number to four decimal digits, as the `%Y` format specifier
does for the common-era years producible here. -/
def pad4 (n : Nat) : String :=
  if n < 10 then "000" ++ toString n
  else if n < 100 then "00" ++ toString n
  else if n < 1000 then "0" ++ toString n
  else toString n

/-- The string `to_beijing_time(ts).format("%Y-%m-%d %H:%M:%S")` built by the
source before every notification (monitor.rs lines 221-222,
monitor_headless.rs lines 191-192).  Negative years cannot arise from the
timestamps considered in the theorems below, so the year is formatted through
`Int.toNat`. -/
def beijing_time_string (tsMillis : Int) : String :=
  let c := civilFromDays (beijing_days tsMillis)
  let sod := beijing_sod tsMillis
  pad4 c.1.toNat ++ "-" ++ pad2 c.2.1 ++ "-" ++ pad2 c.2.2 ++ " " ++
    pad2 (sod / 3600) ++ ":" ++ pad2 (sod % 3600 / 60) ++ ":" ++ pad2 (sod % 60)

/-- ASCII lowercasing of `side.to_lowercase()`; the side strings compared by
the source are ASCII. -/
def lower (s : String) : String :=
  String.mk (s.data.map Char.toLower)

/-- The `get_formatted_side` helper of monitor.rs (lines 117-129), label
component only; the second tuple component of the source function is a UI
colour and never reaches the notification path. -/
def get_formatted_side (side : String) : String :=
  match lower side with
  | "buy" => "Buy"
  | "sell" => "Sell"
  | "long" => "Long"
  | "short" => "Short"
  | "deposit" => "Deposit"
  | "withdraw" => "Withdraw"
  | "transfer" => "Transfer"
  | "send" => "Transfer"
  | "receive" => "Receive"
  | _ => side

/-- The notification title built for a new transaction: the `text` match of
monitor.rs lines 228-236 for the gui binary, and
`format!("T:{} {} {}", time_str, tx.token, tx.side)` of monitor_headless.rs
line 194 for the headless binary. -/
def notification_text (v : Variant) (tx : Transaction) : String :=
  match v with
  | .gui =>
    let time_str := beijing_time_string tx.timestamp
    let side_display := get_formatted_side tx.side
    match lower tx.side with
    | "buy" => "[LONG] " ++ time_str ++ " " ++ tx.token ++ " " ++ side_display
    | "long" => "[LONG] " ++ time_str ++ " " ++ tx.token ++ " " ++ side_display
    | "sell" => "[SHORT] " ++ time_str ++ " " ++ tx.token ++ " " ++ side_display
    | "short" => "[SHORT] " ++ time_str ++ " " ++ tx.token ++ " " ++ side_display
    | "deposit" => "[DEPOSIT] " ++ time_str ++ " " ++ tx.token ++ " " ++ side_display
    | "withdraw" => "[WITHDRAW] " ++ time_str ++ " " ++ tx.token ++ " " ++ side_display
    | "transfer" => "[TRANSFER] " ++ time_str ++ " " ++ tx.token ++ " " ++ side_display
    | "send" => "[TRANSFER] " ++ time_str ++ " " ++ tx.token ++ " " ++ side_display
    | "receive" => "[RECEIVE] " ++ time_str ++ " " ++ tx.token ++ " " ++ side_display
    | _ => "[TRANSACTION] " ++ time_str ++ " " ++ tx.token ++ " " ++ side_display
  | .headless =>
    "T:" ++ beijing_time_string tx.timestamp ++ " " ++ tx.token ++ " " ++ tx.side

/-- The bracketed category the spec associates with a side.  Stated
separately from `notification_text` so the title-shape theorem relates the
source's match to this mapping. -/
def bracket_category (side : String) : String :=
  match lower side with
  | "buy" => "LONG"
  | "long" => "LONG"
  | "sell" => "SHORT"
  | "short" => "SHORT"
  | "deposit" => "DEPOSIT"
  | "withdraw" => "WITHDRAW"
  | "transfer" => "TRANSFER"
  | "send" => "TRANSFER"
  | "receive" => "RECEIVE"
  | _ => "TRANSACTION"

/-- Decomposition of a list at a leading maximal digit run, the behaviour of
the `\d+` atom of the regex `sctp(\d+)t` at a fixed position. -/
def digitRun : List Char → List Char × List Char
  | [] => ([], [])
  | c :: cs =>
    if c.isDigit then
      let r := digitRun cs
      (c :: r.1, r.2)
    else
      ([], c :: cs)

/-- Match of the regex `sctp(\d+)t` anchored at the head of the list,
returning the first capture group.  Backtracking over `\d+` cannot help: a
shorter digit run is followed by a digit, never by `t`, so checking the
maximal run is complete. -/
def matchSctpAt (l : List Char) : Option (List Char) :=
  match l with
  | 's' :: 'c' :: 't' :: 'p' :: rest =>
    match digitRun rest with
    | ([], _) => none
    | (d :: ds, 't' :: _) => some (d :: ds)
    | (_ :: _, _) => none
  | _ => none

/-- Unanchored leftmost search for `sctp(\d+)t`, the semantics of
`Regex::captures` in `sc_send` (monitor.rs lines 76-80). -/
def findSctpNum : List Char → Option (List Char)
  | [] => none
  | c :: cs =>
    match matchSctpAt (c :: cs) with
    | some d => some d
    | none => findSctpNum cs

/-- Test whether a character list begins with the given pattern
(`key.starts_with("sctp")` in the source). -/
def startsWithL : List Char → List Char → Bool
  | _, [] => true
  | [], _ :: _ => false
  | c :: cs, p :: ps => c == p && startsWithL cs ps

/-- URL construction and key-format validation of `sc_send` (monitor.rs lines
71-95, monitor_headless.rs lines 237-264): the locally decidable part of one
delivery attempt.  `Except.error` is the early `return Err("Invalid sendkey
format for sctp")`; `Except.ok` carries the URL handed to the HTTP client.
The HTTP POST itself is external I/O. -/
def sc_send_url (key : String) : Except String String :=
  if startsWithL key.data ['s', 'c', 't', 'p'] then
    match findSctpNum key.data with
    | some num =>
      Except.ok ("https://" ++ String.mk num ++ ".push.ft07.com/send/" ++ key ++ ".send")
    | none => Except.error "Invalid sendkey format for sctp"
  else
    Except.ok ("https://sctapi.ftqq.com/" ++ key ++ ".send")

/-- The fan-out loop `send_to_all_keys` (monitor.rs lines 98-104,
monitor_headless.rs lines 267-276): every non-empty key in order receives
exactly one attempt whose result is discarded (`let _ = sc_send(...)`), so
the attempt log is one entry per non-empty key, each carrying its own
outcome; no outcome influences later iterations. -/
def send_to_all_keys (keys : List String) : List (String × Except String String) :=
  (keys.filter (fun k => !(k == ""))).map (fun k => (k, sc_send_url k))

/-- Notification events submitted for one new transaction: one per non-empty
key, in key order (the `send_to_all_keys` call sites at monitor.rs line 244
and monitor_headless.rs line 200). -/
def notify_events (v : Variant) (sendkeys : List String) (tx : Transaction) : List Event :=
  (sendkeys.filter (fun k => !(k == ""))).map
    (fun k => Event.notify k (notification_text v tx))

/-- One steady-state iteration of the polling loop of `monitor_address`
(monitor.rs lines 190-260, monitor_headless.rs lines 160-223), Transactions
branch: on a failed fetch (`if let Ok(fills)` falls through) nothing happens;
on a successful fetch the snapshot is classified, every new transaction is
notified (only when at least one sendkey is registered), and all new records
are appended to the shared log inside a single lock/extend/unlock critical
section executed only when there is something to append. -/
def monitor_tick (v : Variant) (start_time : Int) (sendkeys : List String)
    (fetch : Except Unit (List Fill)) (st : MonitorState) : MonitorState × List Event :=
  match fetch with
  | .error _ => (st, [])
  | .ok fills =>
    let r := classifyFills st.seen start_time fills
    let newTxs := r.1.map mkTransaction
    let notifications :=
      newTxs.flatMap (fun tx => if sendkeys ≠ [] then notify_events v sendkeys tx else [])
    let lockSection :=
      if newTxs ≠ [] then
        Event.lockAcquire :: (newTxs.map Event.append ++ [Event.lockRelease])
      else []
    ({ seen := r.2, log := st.log ++ newTxs }, notifications ++ lockSection)

/-- One step of the bootstrap loop (monitor.rs lines 148-168,
monitor_headless.rs lines 112-131): insert the fill's identifier
unconditionally, and push the record to the shared log (own lock
acquisition per record in the source) when
`fill.time as i64 > start_time - 3600000`.  No notification is ever sent
here. -/
def bootstrap_step (start_time : Int) (st : MonitorState × List Event) (f : Fill) :
    MonitorState × List Event :=
  let seen' := st.1.seen.insert (transaction_id f)
  if asI64 f.time > start_time - 3600000 then
    ({ seen := seen', log := st.1.log ++ [mkTransaction f] },
      st.2 ++ [Event.lockAcquire, Event.append (mkTransaction f), Event.lockRelease])
  else
    ({ seen := seen', log := st.1.log }, st.2)

/-- Initialization of a Transactions monitor (monitor.rs lines 145-168,
monitor_headless.rs lines 109-135): one fetch; on failure the state stays
empty, otherwise every returned fill passes through `bootstrap_step`. -/
def monitor_init (start_time : Int) (fetch : Except Unit (List Fill)) :
    MonitorState × List Event :=
  match fetch with
  | .error _ => ({ seen := [], log := [] }, [])
  | .ok fills => fills.foldl (bootstrap_step start_time) ({ seen := [], log := [] }, [])

/-- Concrete fills used by witnesses and counterexamples. -/
def fillW1 : Fill := { time := 20, oid := 2, coin := "BTC", side := "buy", sz := "1", px := "2" }

def fillOld : Fill := { time := 5, oid := 1, coin := "ETH", side := "buy", sz := "1", px := "2" }

def fillFuture : Fill :=
  { time := 10000001, oid := 7, coin := "SOL", side := "sell", sz := "3", px := "4" }

def fillC4 : Fill := { time := 1, oid := 2, coin := "BTC", side := "buy", sz := "1", px := "2" }

def txC7 : Transaction :=
  { timestamp := 1700000000000, token := "BTC", side := "buy", sz := "1", px := "2" }

/-- The spec's key-shape condition for `sctp` keys, stated in the spec's own
words: the key contains, somewhere, a non-empty digit run framed by the
literal `sctp` and a following literal `t`. -/
def SctpDecomp (l num : List Char) : Prop :=
  ∃ pre post, l = pre ++ 's' :: 'c' :: 't' :: 'p' :: (num ++ 't' :: post) ∧ num ≠ [] ∧
    ∀ c ∈ num, c.isDigit = true

/-- Shape of a `YYYY-MM-DD HH:MM:SS` string: six zero-padded decimal fields
with in-range values, joined by the format's separators. -/
def TimeStringShape (s : String) : Prop :=
  ∃ y mo d hh mi ss : Nat,
    y ≤ 9999 ∧ 1 ≤ mo ∧ mo ≤ 12 ∧ 1 ≤ d ∧ d ≤ 31 ∧ hh < 24 ∧ mi < 60 ∧ ss < 60 ∧
    s = pad4 y ++ "-" ++ pad2 mo ++ "-" ++ pad2 d ++ " " ++
      pad2 hh ++ ":" ++ pad2 mi ++ ":" ++ pad2 ss

theorem classifyFills_sublist (seen : List String) (cutoff : Int) (fills : List Fill) :
    (classifyFills seen cutoff fills).1.Sublist fills := by
  induction fills generalizing seen with
  | nil => simp [classifyFills]
  | cons f fs ih =>
    by_cases hc : transaction_id f ∉ seen ∧ asI64 f.time > cutoff
    · simp only [classifyFills, if_pos hc]
      exact List.Sublist.cons₂ f (ih _)
    · simp only [classifyFills, if_neg hc]
      exact List.Sublist.cons f (ih _)

theorem classifyFills_mem_new (seen : List String) (cutoff : Int) (fills : List Fill)
    (f : Fill) (hf : f ∈ (classifyFills seen cutoff fills).1) :
    transaction_id f ∉ seen ∧ asI64 f.time > cutoff := by
  induction fills generalizing seen with
  | nil => simp [classifyFills] at hf
  | cons g gs ih =>
    by_cases hc : transaction_id g ∉ seen ∧ asI64 g.time > cutoff
    · simp only [classifyFills, if_pos hc] at hf
      rcases List.mem_cons.mp hf with rfl | hf'
      · exact hc
      · have h := ih _ hf'
        exact ⟨fun hmem => h.1 (List.mem_cons_of_mem _ hmem), h.2⟩
    · simp only [classifyFills, if_neg hc] at hf
      exact ih _ hf

theorem classifyFills_seen_mem (seen : List String) (cutoff : Int) (fills : List Fill)
    (x : String) :
    x ∈ (classifyFills seen cutoff fills).2 ↔
      x ∈ seen ∨ x ∈ (classifyFills seen cutoff fills).1.map transaction_id := by
  induction fills generalizing seen with
  | nil => simp [classifyFills]
  | cons g gs ih =>
    by_cases hc : transaction_id g ∉ seen ∧ asI64 g.time > cutoff
    · simp only [classifyFills, if_pos hc]
      rw [ih]
      simp only [List.mem_cons, List.map_cons]
      tauto
    · simp only [classifyFills, if_neg hc]
      exact ih _

theorem classifyFills_seen_nodup (seen : List String) (cutoff : Int) (fills : List Fill)
    (h : seen.Nodup) : (classifyFills seen cutoff fills).2.Nodup := by
  induction fills generalizing seen with
  | nil => simpa [classifyFills]
  | cons g gs ih =>
    by_cases hc : transaction_id g ∉ seen ∧ asI64 g.time > cutoff
    · simp only [classifyFills, if_pos hc]
      exact ih _ (List.nodup_cons.mpr ⟨hc.1, h⟩)
    · simp only [classifyFills, if_neg hc]
      exact ih _ h

theorem classifyFills_complete (seen : List String) (cutoff : Int) (fills : List Fill)
    (hnd : (fills.map transaction_id).Nodup) (f : Fill) (hf : f ∈ fills)
    (hid : transaction_id f ∉ seen) (ht : asI64 f.time > cutoff) :
    f ∈ (classifyFills seen cutoff fills).1 := by
  induction fills generalizing seen with
  | nil => cases hf
  | cons g gs ih =>
    rw [List.map_cons, List.nodup_cons] at hnd
    rcases List.mem_cons.mp hf with rfl | hf'
    · simp only [classifyFills, if_pos (And.intro hid ht)]
      exact List.mem_cons_self _ _
    · by_cases hc : transaction_id g ∉ seen ∧ asI64 g.time > cutoff
      · simp only [classifyFills, if_pos hc]
        refine List.mem_cons_of_mem _ (ih _ hnd.2 hf' ?_)
        intro hmem
        rcases List.mem_cons.mp hmem with heq | hmem'
        · exact hnd.1 (heq ▸ List.mem_map_of_mem transaction_id hf')
        · exact hid hmem'
      · simp only [classifyFills, if_neg hc]
        exact ih _ hnd.2 hf' hid

/-- C1: in a steady-state tick, a fetched fill is classified new iff its
identifier is absent from `seenIds` and its timestamp is strictly greater
than the cutoff (the loop's start time); a fill with timestamp at or below
the cutoff is never new, and the returned new fills preserve fetch order.
The converse direction is stated for snapshots whose identifiers are
pairwise distinct: a within-snapshot duplicate is inserted on first sight
and therefore classified against the already-updated set, which is the
source's order of operations. -/
theorem C1_steady_state_new_iff (seen : List String) (cutoff : Int) (fills : List Fill) :
    (classifyFills seen cutoff fills).1.Sublist fills ∧
    (∀ f ∈ (classifyFills seen cutoff fills).1,
        transaction_id f ∉ seen ∧ asI64 f.time > cutoff) ∧
    (∀ f ∈ fills, asI64 f.time ≤ cutoff → f ∉ (classifyFills seen cutoff fills).1) ∧
    ((fills.map transaction_id).Nodup →
      ∀ f ∈ fills, transaction_id f ∉ seen → asI64 f.time > cutoff →
        f ∈ (classifyFills seen cutoff fills).1) := by
  refine ⟨classifyFills_sublist seen cutoff fills,
    fun f hf => classifyFills_mem_new seen cutoff fills f hf,
    fun f _ hle hmem =>
      absurd (classifyFills_mem_new seen cutoff fills f hmem).2 (not_lt.mpr hle),
    fun hnd f hf hid ht => classifyFills_complete seen cutoff fills hnd f hf hid ht⟩

/-- Witness for C1 at a concrete input: a first-sight fill with timestamp 20
against cutoff 10 is classified new. -/
theorem C1_witness : fillW1 ∈ (classifyFills [] 10 [fillW1]).1 :=
  (C1_steady_state_new_iff [] 10 [fillW1]).2.2.2 (by decide) fillW1 (by decide)
    (by decide) (by decide)

/-- C2 as stated is refuted: in a steady-state tick the source inserts an
identifier only inside the new-fill branch (monitor.rs line 203), so the
identifier of a fetched fill that is not classified new — here a first-sight
fill with timestamp 5 at or below the cutoff 10 — is never added to
`seenIds`. -/
theorem C2_counterexample :
    transaction_id fillOld ∉ (classifyFills [] 10 [fillOld]).2 ∧
    (classifyFills [] 10 [fillOld]).1 = [] := by decide

/-- C2 amended: on a steady-state classification the identifiers added to
`seenIds` are exactly those of the fills classified new (not of every
fetched fill), and the set never holds a duplicate, so each distinct
identifier is added at most once across any sequence of ticks. -/
theorem C2_seen_ids_update (seen : List String) (cutoff : Int) (fills : List Fill) :
    (∀ x, x ∈ (classifyFills seen cutoff fills).2 ↔
        x ∈ seen ∨ x ∈ (classifyFills seen cutoff fills).1.map transaction_id) ∧
    (seen.Nodup → (classifyFills seen cutoff fills).2.Nodup) :=
  ⟨fun x => classifyFills_seen_mem seen cutoff fills x,
   fun h => classifyFills_seen_nodup seen cutoff fills h⟩

/-- Witness for C2's amended statement at a concrete input. -/
theorem C2_witness : (classifyFills [] 10 [fillW1, fillOld]).2.Nodup :=
  (C2_seen_ids_update [] 10 [fillW1, fillOld]).2 (by decide)

theorem bootstrap_step_seen_self (start : Int) (st : MonitorState × List Event) (f : Fill) :
    transaction_id f ∈ (bootstrap_step start st f).1.seen := by
  unfold bootstrap_step
  split <;> simp [List.mem_insert_iff]

theorem bootstrap_step_seen_mono (start : Int) (st : MonitorState × List Event) (f : Fill)
    (x : String) (hx : x ∈ st.1.seen) : x ∈ (bootstrap_step start st f).1.seen := by
  unfold bootstrap_step
  split <;> simp [List.mem_insert_iff, hx]

theorem bootstrap_foldl_seen_mono (start : Int) (fills : List Fill)
    (st : MonitorState × List Event) (x : String) (hx : x ∈ st.1.seen) :
    x ∈ (fills.foldl (bootstrap_step start) st).1.seen := by
  induction fills generalizing st with
  | nil => exact hx
  | cons g gs ih =>
    exact ih _ (bootstrap_step_seen_mono start st g x hx)

theorem bootstrap_foldl_seen_of_mem (start : Int) (fills : List Fill)
    (st : MonitorState × List Event) (f : Fill) (hf : f ∈ fills) :
    transaction_id f ∈ (fills.foldl (bootstrap_step start) st).1.seen := by
  induction fills generalizing st with
  | nil => cases hf
  | cons g gs ih =>
    rcases List.mem_cons.mp hf with rfl | hf'
    · exact bootstrap_foldl_seen_mono start gs _ _ (bootstrap_step_seen_self start st f)
    · exact ih _ hf'

theorem bootstrap_step_log_eq (start : Int) (st : MonitorState × List Event) (f : Fill) :
    (bootstrap_step start st f).1.log =
      st.1.log ++ (if asI64 f.time > start - 3600000 then [mkTransaction f] else []) := by
  unfold bootstrap_step
  split <;> simp

theorem bootstrap_foldl_log_eq (start : Int) (fills : List Fill)
    (st : MonitorState × List Event) :
    (fills.foldl (bootstrap_step start) st).1.log =
      st.1.log ++
        (fills.filter (fun f => decide (asI64 f.time > start - 3600000))).map mkTransaction := by
  induction fills generalizing st with
  | nil => simp
  | cons g gs ih =>
    rw [List.foldl_cons, ih]
    rw [bootstrap_step_log_eq]
    by_cases h : asI64 g.time > start - 3600000 <;>
      simp [h, List.filter_cons, List.append_assoc]

theorem bootstrap_step_events_no_notify (start : Int) (st : MonitorState × List Event)
    (f : Fill) (h : ∀ e ∈ st.2, e.isNotify = false) :
    ∀ e ∈ (bootstrap_step start st f).2, e.isNotify = false := by
  unfold bootstrap_step
  split
  · intro e he
    rcases List.mem_append.mp he with he' | he'
    · exact h e he'
    · simp only [List.mem_cons, List.not_mem_nil, or_false] at he'
      rcases he' with rfl | rfl | rfl <;> rfl
  · exact h

theorem bootstrap_foldl_no_notify (start : Int) (fills : List Fill)
    (st : MonitorState × List Event) (h : ∀ e ∈ st.2, e.isNotify = false) :
    ∀ e ∈ (fills.foldl (bootstrap_step start) st).2, e.isNotify = false := by
  induction fills generalizing st with
  | nil => exact h
  | cons g gs ih =>
    exact ih _ (bootstrap_step_events_no_notify start st g h)

/-- C3 as stated is refuted: the bootstrap appends a fill to the Observation
Log whenever `fill.time as i64 > start_time - 3600000` (monitor.rs line 154)
with no upper bound at `start_time`, so a bootstrap fill with timestamp
strictly greater than the loop's start time — outside the claimed backfill
window — is still appended to the log. -/
theorem C3_counterexample :
    mkTransaction fillFuture ∈ (monitor_init 10000000 (Except.ok [fillFuture])).1.log ∧
    asI64 fillFuture.time > 10000000 := by decide

/-- C3 amended: on bootstrap every returned fill's identifier is inserted
into `seenIds`, no notification is emitted, and the fills appended to the
Observation Log are exactly those with timestamp strictly greater than
`startTime - 3,600,000 ms` — the window has a strict lower bound and no
upper bound; in particular a fill at or below the lower bound is recorded in
`seenIds` but not appended. -/
theorem C3_bootstrap (start : Int) (fills : List Fill) :
    (∀ f ∈ fills, transaction_id f ∈ (monitor_init start (Except.ok fills)).1.seen) ∧
    (monitor_init start (Except.ok fills)).1.log =
      (fills.filter (fun f => decide (asI64 f.time > start - 3600000))).map mkTransaction ∧
    (∀ e ∈ (monitor_init start (Except.ok fills)).2, e.isNotify = false) := by
  refine ⟨fun f hf => bootstrap_foldl_seen_of_mem start fills _ f hf, ?_, ?_⟩
  · simpa [monitor_init] using bootstrap_foldl_log_eq start fills ({ seen := [], log := [] }, [])
  · exact bootstrap_foldl_no_notify start fills _ (by simp)

/-- Witness for C3's amended statement: a fill far below the backfill bound
has its identifier recorded in `seenIds`. -/
theorem C3_witness :
    transaction_id fillOld ∈ (monitor_init 10000000 (Except.ok [fillOld])).1.seen :=
  (C3_bootstrap 10000000 [fillOld]).1 fillOld (by decide)

/-- C4 as stated is refuted: the stored identifier is
`format!("{}-{}", fill.time, fill.oid)` — time and order id joined by a
hyphen — not the spec's colon-joined composite key `fillTime:orderId`: for
the fill with time 1 and order id 2 the set holds `"1-2"` and not `"1:2"`. -/
theorem C4_counterexample :
    (monitor_init 0 (Except.ok [fillC4])).1.seen = ["1-2"] ∧
    specCompositeId fillC4.time fillC4.oid ∉ (monitor_init 0 (Except.ok [fillC4])).1.seen := by
  decide

/-- C4 amended: for every fill observed by the monitor, the deduplication
identifier stored in `seenIds` is the fill's decimal reported time and
decimal order id joined by a hyphen, in that order. -/
theorem C4_transaction_id (start : Int) (fills : List Fill) (f : Fill) (hf : f ∈ fills) :
    (toString f.time ++ "-" ++ toString f.oid) ∈
      (monitor_init start (Except.ok fills)).1.seen :=
  bootstrap_foldl_seen_of_mem start fills _ f hf

/-- Witness for C4's amended statement at a concrete fill. -/
theorem C4_witness :
    (toString fillC4.time ++ "-" ++ toString fillC4.oid) ∈
      (monitor_init 0 (Except.ok [fillC4])).1.seen :=
  C4_transaction_id 0 [fillC4] fillC4 (by decide)

theorem digitRun_append (l : List Char) : (digitRun l).1 ++ (digitRun l).2 = l := by
  induction l with
  | nil => rfl
  | cons c cs ih =>
    by_cases h : c.isDigit = true <;> simp [digitRun, h, ih]

theorem digitRun_digits (l : List Char) : ∀ c ∈ (digitRun l).1, c.isDigit = true := by
  induction l with
  | nil => intro c h; cases h
  | cons c cs ih =>
    by_cases h : c.isDigit = true
    · simp only [digitRun, if_pos h]
      intro x hx
      rcases List.mem_cons.mp hx with rfl | hx'
      · exact h
      · exact ih x hx'
    · simp only [digitRun, if_neg h]
      intro x hx; cases hx

theorem digitRun_of_digits (num r : List Char) (hd : ∀ c ∈ num, c.isDigit = true)
    (hr : ∀ c cs, r = c :: cs → c.isDigit = false) :
    digitRun (num ++ r) = (num, r) := by
  induction num with
  | nil =>
    cases r with
    | nil => rfl
    | cons c cs => simp [digitRun, hr c cs rfl]
  | cons c cs ih =>
    have hc : c.isDigit = true := hd c (List.mem_cons_self c cs)
    simp [digitRun, hc, ih (fun x hx => hd x (List.mem_cons_of_mem c hx))]

theorem matchSctpAt_sound (l d : List Char) (h : matchSctpAt l = some d) :
    ∃ post, l = 's' :: 'c' :: 't' :: 'p' :: (d ++ 't' :: post) ∧ d ≠ [] ∧
      ∀ c ∈ d, c.isDigit = true := by
  unfold matchSctpAt at h
  split at h
  · rename_i rest
    split at h
    · exact absurd h (by simp)
    · rename_i d0 ds tl heq
      cases h
      have hsplit := digitRun_append rest
      rw [heq] at hsplit
      refine ⟨tl, ?_, by simp, ?_⟩
      · rw [← hsplit]
      · intro c hc
        have : c ∈ (digitRun rest).1 := by rw [heq]; exact hc
        exact digitRun_digits rest c this
    · exact absurd h (by simp)
  · exact absurd h (by simp)

theorem matchSctpAt_complete (num post : List Char) (hne : num ≠ [])
    (hd : ∀ c ∈ num, c.isDigit = true) :
    matchSctpAt ('s' :: 'c' :: 't' :: 'p' :: (num ++ 't' :: post)) = some num := by
  have h1 : digitRun (num ++ 't' :: post) = (num, 't' :: post) :=
    digitRun_of_digits num ('t' :: post) hd (by intro c cs h; cases h; decide)
  cases num with
  | nil => exact absurd rfl hne
  | cons c cs =>
    simp only [List.cons_append] at h1
    simp [matchSctpAt, h1]

theorem findSctpNum_sound (l d : List Char) (h : findSctpNum l = some d) :
    ∃ pre post, l = pre ++ 's' :: 'c' :: 't' :: 'p' :: (d ++ 't' :: post) ∧ d ≠ [] ∧
      ∀ c ∈ d, c.isDigit = true := by
  induction l with
  | nil => simp [findSctpNum] at h
  | cons c cs ih =>
    rw [findSctpNum] at h
    cases hm : matchSctpAt (c :: cs) with
    | some d0 =>
      rw [hm] at h
      cases h
      obtain ⟨post, heq, hne, hdig⟩ := matchSctpAt_sound _ _ hm
      exact ⟨[], post, by simpa using heq, hne, hdig⟩
    | none =>
      rw [hm] at h
      obtain ⟨pre, post, heq, hne, hdig⟩ := ih h
      exact ⟨c :: pre, post, by simp [heq], hne, hdig⟩

theorem findSctpNum_complete (pre num post : List Char) (hne : num ≠ [])
    (hd : ∀ c ∈ num, c.isDigit = true) :
    ∃ d, findSctpNum (pre ++ 's' :: 'c' :: 't' :: 'p' :: (num ++ 't' :: post)) = some d := by
  induction pre with
  | nil =>
    refine ⟨num, ?_⟩
    rw [List.nil_append, findSctpNum, matchSctpAt_complete num post hne hd]
  | cons c cs ih =>
    rw [List.cons_append, findSctpNum]
    rcases hm : matchSctpAt (c :: (cs ++ 's' :: 'c' :: 't' :: 'p' :: (num ++ 't' :: post))) with
      _ | d
    · exact ih
    · exact ⟨d, rfl⟩

/-- C5: for a key starting with the literal `sctp`, either some digit run
between an `sctp` and a following `t` exists in the key and the delivery URL
is `https://{digits}.push.ft07.com/send/{key}.send` for such a digit run, or
no such run exists and the attempt fails with the format error; for a key
not starting with `sctp` the URL is `https://sctapi.ftqq.com/{key}.send`. -/
theorem C5_sc_send_url (key : String) :
    (startsWithL key.data ['s', 'c', 't', 'p'] = true →
      (∃ num, SctpDecomp key.data num ∧
        sc_send_url key =
          Except.ok ("https://" ++ String.mk num ++ ".push.ft07.com/send/" ++ key ++ ".send")) ∨
      ((¬ ∃ num, SctpDecomp key.data num) ∧
        sc_send_url key = Except.error "Invalid sendkey format for sctp")) ∧
    (startsWithL key.data ['s', 'c', 't', 'p'] = false →
      sc_send_url key = Except.ok ("https://sctapi.ftqq.com/" ++ key ++ ".send")) := by
  constructor
  · intro hs
    cases hm : findSctpNum key.data with
    | some num =>
      left
      obtain ⟨pre, post, heq, hne, hdig⟩ := findSctpNum_sound _ _ hm
      exact ⟨num, ⟨pre, post, heq, hne, hdig⟩, by simp [sc_send_url, hs, hm]⟩
    | none =>
      right
      refine ⟨?_, by simp [sc_send_url, hs, hm]⟩
      rintro ⟨num, pre, post, heq, hne, hdig⟩
      obtain ⟨d, hd⟩ := heq ▸ findSctpNum_complete pre num post hne hdig
      rw [hm] at hd
      cases hd
  · intro hs
    simp [sc_send_url, hs]

/-- Witness for C5 at the spec's own examples: the `sctp`-shaped key and a
plain key. -/
theorem C5_witness :
    ((∃ num, SctpDecomp "sctp1234tXXXX".data num ∧
        sc_send_url "sctp1234tXXXX" =
          Except.ok ("https://" ++ String.mk num ++ ".push.ft07.com/send/" ++
            "sctp1234tXXXX" ++ ".send")) ∨
      ((¬ ∃ num, SctpDecomp "sctp1234tXXXX".data num) ∧
        sc_send_url "sctp1234tXXXX" = Except.error "Invalid sendkey format for sctp")) ∧
    sc_send_url "XXXX" = Except.ok ("https://sctapi.ftqq.com/" ++ "XXXX" ++ ".send") :=
  ⟨(C5_sc_send_url "sctp1234tXXXX").1 (by decide), (C5_sc_send_url "XXXX").2 (by decide)⟩

theorem send_to_all_keys_map_fst (keys : List String) :
    (send_to_all_keys keys).map Prod.fst = keys.filter (fun k => !(k == "")) := by
  simp [send_to_all_keys, List.map_map, Function.comp_def]

/-- C6: the fan-out attempts delivery once per non-empty key occurrence, in
order; the attempt list is compositional in the key list (so an earlier
key's failure — the attempt outcome is carried per entry and discarded —
cannot suppress later attempts), every non-empty key's attempt with its own
outcome is present, and under distinct keys each key receives at most one
attempt per event. -/
theorem C6_fan_out (keys : List String) :
    (send_to_all_keys keys).map Prod.fst = keys.filter (fun k => !(k == "")) ∧
    (∀ ks : List String,
      send_to_all_keys (keys ++ ks) = send_to_all_keys keys ++ send_to_all_keys ks) ∧
    (∀ k ∈ keys, ¬(k = "") → (k, sc_send_url k) ∈ send_to_all_keys keys) ∧
    (keys.Nodup → ∀ k, ((send_to_all_keys keys).map Prod.fst).count k ≤ 1) := by
  refine ⟨send_to_all_keys_map_fst keys, ?_, ?_, ?_⟩
  · intro ks
    simp [send_to_all_keys, List.filter_append]
  · intro k hk hne
    refine List.mem_map_of_mem _ (List.mem_filter.mpr ⟨hk, ?_⟩)
    simpa using hne
  · intro hnd k
    rw [send_to_all_keys_map_fst]
    exact le_trans ((List.filter_sublist keys).count_le k)
      (List.nodup_iff_count_le_one.mp hnd k)

/-- Witness for C6: a malformed `sctp` key whose attempt fails with the
format error does not suppress the attempt for the following key, and the
following key is attempted exactly once. -/
theorem C6_witness :
    ("sctpXtYYYY", sc_send_url "sctpXtYYYY") ∈ send_to_all_keys ["sctpXtYYYY", "k2"] ∧
    ("k2", sc_send_url "k2") ∈ send_to_all_keys ["sctpXtYYYY", "k2"] ∧
    ((send_to_all_keys ["sctpXtYYYY", "k2"]).map Prod.fst).count "k2" ≤ 1 ∧
    sc_send_url "sctpXtYYYY" = Except.error "Invalid sendkey format for sctp" :=
  ⟨(C6_fan_out ["sctpXtYYYY", "k2"]).2.2.1 "sctpXtYYYY" (by decide) (by decide),
   (C6_fan_out ["sctpXtYYYY", "k2"]).2.2.1 "k2" (by decide) (by decide),
   (C6_fan_out ["sctpXtYYYY", "k2"]).2.2.2 (by decide) "k2",
   rfl⟩

/-- C10: an empty key is silently skipped by the fan-out — no attempt (and
hence no URL construction) is recorded for it — and removing an empty key
from anywhere in the sequence leaves every other key's attempt unchanged. -/
theorem C10_empty_key_skipped (keys pre post : List String) :
    "" ∉ (send_to_all_keys keys).map Prod.fst ∧
    send_to_all_keys (pre ++ "" :: post) = send_to_all_keys (pre ++ post) := by
  constructor
  · rw [send_to_all_keys_map_fst]
    intro h
    have := (List.mem_filter.mp h).2
    simp at this
  · simp [send_to_all_keys, List.filter_append, List.filter_cons]

/-- Witness for C10 at a concrete key sequence containing an empty key. -/
theorem C10_witness :
    send_to_all_keys (["a"] ++ "" :: ["b"]) = send_to_all_keys (["a"] ++ ["b"]) :=
  (C10_empty_key_skipped ["a", "", "b"] ["a"] ["b"]).2

/-- C8: a failed fetch skips the whole iteration: `seenIds` and the
Observation Log are unchanged, no event — neither a notification nor a lock
acquisition/append — is emitted, and the tick returns normally (no error is
propagated; the loop retries on the next tick). -/
theorem C8_fetch_failure_skips (v : Variant) (start_time : Int) (sendkeys : List String)
    (st : MonitorState) (e : Unit) :
    (monitor_tick v start_time sendkeys (Except.error e) st).1.seen = st.seen ∧
    (monitor_tick v start_time sendkeys (Except.error e) st).1.log = st.log ∧
    (monitor_tick v start_time sendkeys (Except.error e) st).2 = [] :=
  ⟨rfl, rfl, rfl⟩

theorem unique_append_cons {α : Type} {x : α} {N M l₁ l₂ : List α}
    (hN : x ∉ N) (hM : x ∉ M) (h : N ++ x :: M = l₁ ++ x :: l₂) : l₁ = N ∧ l₂ = M := by
  induction N generalizing l₁ with
  | nil =>
    cases l₁ with
    | nil =>
      simp only [List.nil_append] at h
      injection h with _ h2
      exact ⟨rfl, h2.symm⟩
    | cons a as =>
      simp only [List.nil_append, List.cons_append] at h
      injection h with h1 h2
      subst h1
      exact absurd (h2 ▸ List.mem_append_right as (List.mem_cons_self x l₂)) hM
  | cons n ns ih =>
    have hxn : x ≠ n := fun he => hN (he ▸ List.mem_cons_self n ns)
    cases l₁ with
    | nil =>
      simp only [List.cons_append, List.nil_append] at h
      injection h with h1 _
      exact absurd h1.symm hxn
    | cons a as =>
      simp only [List.cons_append] at h
      injection h with h1 h2
      obtain ⟨ha, hb⟩ := ih (fun hm => hN (List.mem_cons_of_mem _ hm)) h2
      subst h1
      exact ⟨by rw [ha], hb⟩

theorem acquire_not_mem_section (txs : List Transaction) :
    Event.lockAcquire ∉ txs.map Event.append ++ [Event.lockRelease] := by
  intro h
  rcases List.mem_append.mp h with h' | h'
  · obtain ⟨tx, _, he⟩ := List.mem_map.mp h'
    cases he
  · simp at h'

theorem section_no_notify (txs : List Transaction) :
    ∀ e ∈ txs.map Event.append ++ [Event.lockRelease], e.isNotify = false := by
  intro e he
  rcases List.mem_append.mp he with h' | h'
  · obtain ⟨tx, _, rfl⟩ := List.mem_map.mp h'
    rfl
  · simp only [List.mem_cons, List.not_mem_nil, or_false] at h'
    subst h'
    rfl

theorem tick_trace_decomp (N : List Event) (txs : List Transaction) (tr : List Event)
    (hN : ∀ e ∈ N, e.isNotify = true)
    (htr : tr = N ++ (if txs ≠ [] then
      Event.lockAcquire :: (txs.map Event.append ++ [Event.lockRelease]) else [])) :
    tr.count Event.lockAcquire ≤ 1 ∧
    ∀ l₁ l₂, tr = l₁ ++ Event.lockAcquire :: l₂ →
      (∀ e ∈ l₁, e.isNotify = true) ∧ (∀ e ∈ l₂, e.isNotify = false) ∧
      l₂ = txs.map Event.append ++ [Event.lockRelease] := by
  subst htr
  have hNacq : Event.lockAcquire ∉ N := fun h => absurd (hN _ h) (by decide)
  by_cases he : txs = []
  · subst he
    simp only [ne_eq, not_true_eq_false, if_false, List.append_nil]
    constructor
    · have h0 : N.count Event.lockAcquire = 0 := List.count_eq_zero.mpr hNacq
      omega
    · intro l₁ l₂ hdec
      exact absurd (hdec ▸ List.mem_append_right l₁ (List.mem_cons_self _ _)) hNacq
  · rw [if_pos he]
    constructor
    · rw [List.count_append]
      have h1 : N.count Event.lockAcquire = 0 := List.count_eq_zero.mpr hNacq
      have h2 : (txs.map Event.append ++ [Event.lockRelease]).count Event.lockAcquire = 0 :=
        List.count_eq_zero.mpr (acquire_not_mem_section txs)
      rw [h1, List.count_cons_self, h2]
    · intro l₁ l₂ hdec
      obtain ⟨hl₁, hl₂⟩ := unique_append_cons hNacq (acquire_not_mem_section txs) hdec
      subst hl₁
      subst hl₂
      exact ⟨hN, section_no_notify txs, rfl⟩

/-- C9: in every successful steady-state tick, every notification event of
the tick precedes the (at most one) lock acquisition; the critical section
consists of exactly the batched appends of the tick's new records — which
are precisely the records that extend the Observation Log — followed by the
single release, with no notification I/O inside it. -/
theorem C9_single_critical_section (v : Variant) (start_time : Int) (sendkeys : List String)
    (fills : List Fill) (st : MonitorState) (tr : List Event)
    (htr : tr = (monitor_tick v start_time sendkeys (Except.ok fills) st).2) :
    tr.count Event.lockAcquire ≤ 1 ∧
    ∀ l₁ l₂, tr = l₁ ++ Event.lockAcquire :: l₂ →
      (∀ e ∈ l₁, e.isNotify = true) ∧ (∀ e ∈ l₂, e.isNotify = false) ∧
      ∃ txs : List Transaction,
        l₂ = txs.map Event.append ++ [Event.lockRelease] ∧
        (monitor_tick v start_time sendkeys (Except.ok fills) st).1.log = st.log ++ txs := by
  have hN : ∀ e ∈ ((classifyFills st.seen start_time fills).1.map mkTransaction).flatMap
      (fun tx => if sendkeys ≠ [] then notify_events v sendkeys tx else []),
      e.isNotify = true := by
    intro e he
    obtain ⟨tx, _, hmem⟩ := List.mem_flatMap.mp he
    by_cases hk : sendkeys ≠ []
    · rw [if_pos hk] at hmem
      obtain ⟨k, _, rfl⟩ := List.mem_map.mp hmem
      rfl
    · rw [if_neg hk] at hmem
      cases hmem
  have htr' : tr = ((classifyFills st.seen start_time fills).1.map mkTransaction).flatMap
      (fun tx => if sendkeys ≠ [] then notify_events v sendkeys tx else []) ++
      (if (classifyFills st.seen start_time fills).1.map mkTransaction ≠ [] then
        Event.lockAcquire ::
          (((classifyFills st.seen start_time fills).1.map mkTransaction).map Event.append ++
            [Event.lockRelease])
      else []) := htr.trans rfl
  obtain ⟨hcount, hdec⟩ := tick_trace_decomp _ _ _ hN htr'
  refine ⟨hcount, fun l₁ l₂ h => ?_⟩
  obtain ⟨h1, h2, h3⟩ := hdec l₁ l₂ h
  exact ⟨h1, h2, (classifyFills st.seen start_time fills).1.map mkTransaction, h3, rfl⟩

/-- Witness for C9 at a concrete tick producing one new record and one
notification. -/
theorem C9_witness :
    ((monitor_tick Variant.gui 10 ["k"] (Except.ok [fillW1])
        { seen := [], log := [] }).2).count Event.lockAcquire ≤ 1 :=
  (C9_single_critical_section Variant.gui 10 ["k"] [fillW1] { seen := [], log := [] } _ rfl).1

theorem civil_md_bounds (z : Int) :
    1 ≤ (civilFromDays z).2.1 ∧ (civilFromDays z).2.1 ≤ 12 ∧
    1 ≤ (civilFromDays z).2.2 ∧ (civilFromDays z).2.2 ≤ 31 := by
  unfold civilFromDays
  dsimp only
  split <;> omega

theorem civil_y_bounds (z : Int) (h0 : 0 ≤ z) (h1 : z ≤ 2400000) :
    0 ≤ (civilFromDays z).1 ∧ (civilFromDays z).1 ≤ 9999 := by
  unfold civilFromDays
  dsimp only
  split <;> split <;> omega

theorem beijing_sod_lt (ts : Int) : beijing_sod ts < 86400 := by
  unfold beijing_sod
  omega

theorem beijing_time_string_shape (ts : Int) (h0 : 0 ≤ ts) (h1 : ts ≤ 200000000000000) :
    TimeStringShape (beijing_time_string ts) := by
  have hdays0 : 0 ≤ beijing_days ts := by unfold beijing_days; omega
  have hdays1 : beijing_days ts ≤ 2400000 := by unfold beijing_days; omega
  obtain ⟨hm1, hm2, hd1, hd2⟩ := civil_md_bounds (beijing_days ts)
  obtain ⟨hy0, hy1⟩ := civil_y_bounds (beijing_days ts) hdays0 hdays1
  have hsod := beijing_sod_lt ts
  refine ⟨(civilFromDays (beijing_days ts)).1.toNat, (civilFromDays (beijing_days ts)).2.1,
    (civilFromDays (beijing_days ts)).2.2, beijing_sod ts / 3600,
    beijing_sod ts % 3600 / 60, beijing_sod ts % 60,
    ?_, hm1, hm2, hd1, hd2, ?_, ?_, ?_, rfl⟩
  · omega
  · omega
  · omega
  · omega

/-- C7 as stated is refuted: a new fill processed by the headless binary
triggers a notification whose title is `T:` followed by the time string,
token, and raw side (monitor_headless.rs line 194) — it does not begin with
a bracketed category. -/
theorem C7_counterexample :
    (monitor_tick Variant.headless 10 ["k"] (Except.ok [fillW1])
        { seen := [], log := [] }).2 =
      Event.notify "k" "T:1970-01-01 08:00:00 BTC buy" ::
        [Event.lockAcquire, Event.append (mkTransaction fillW1), Event.lockRelease] ∧
    startsWithL ("T:1970-01-01 08:00:00 BTC buy").data ['['] = false := by decide

/-- C7 amended: in the gui binary (monitor.rs) the notification title is the
bracketed category derived from the fill's side, then the UTC+8 fixed-offset
time string in `YYYY-MM-DD HH:MM:SS` shape, the token symbol, and the
humanized side label; the headless binary instead uses a `T:`-prefixed title
with the raw side and no bracketed category. -/
theorem C7_notification_title (tx : Transaction) (h0 : 0 ≤ tx.timestamp)
    (h1 : tx.timestamp ≤ 200000000000000) :
    notification_text Variant.gui tx =
      "[" ++ bracket_category tx.side ++ "] " ++ beijing_time_string tx.timestamp ++
        " " ++ tx.token ++ " " ++ get_formatted_side tx.side ∧
    TimeStringShape (beijing_time_string tx.timestamp) ∧
    notification_text Variant.headless tx =
      "T:" ++ beijing_time_string tx.timestamp ++ " " ++ tx.token ++ " " ++ tx.side := by
  refine ⟨?_, beijing_time_string_shape tx.timestamp h0 h1, rfl⟩
  unfold notification_text bracket_category
  dsimp only
  generalize lower tx.side = s
  split <;> rfl

/-- Witness for C7's amended statement at a concrete transaction. -/
theorem C7_witness :
    notification_text Variant.gui txC7 =
      "[" ++ bracket_category txC7.side ++ "] " ++ beijing_time_string txC7.timestamp ++
        " " ++ txC7.token ++ " " ++ get_formatted_side txC7.side :=
  (C7_notification_title txC7 (by decide) (by decide)).1

end HLMonitor
